import Mathlib

/-!
Shallow embedding of `gdrive_service.py` (class `GoogleDriveService`).

The remote Google Drive service is modelled as a `Drive`: a list of remote
entities (each with an opaque id, a name, a parent-id string and a folder
flag), a counter used to mint fresh ids for created entities, and a
`pageLimit` field describing the server's paging behaviour for listing
requests (`none`: the whole result set is returned in the first page;
`some k`: the first page holds at most `k` results and a `nextPageToken`
is returned when results remain).

Python `None` passed as `id_parent` is interpolated into the listing query
by an f-string (`f"parents in '{id_parent}'"`), producing the literal text
`None`; the model mirrors this with `fmtParent`.

`nextId` is incremented exactly once by each `create_folder` and each
`upload_file` call and by nothing else, so the difference between the
`nextId` fields of two drive states counts the create/upload calls issued
between them.
-/

structure Entity where
  id : String
  name : String
  parent : String
  isFolder : Bool
deriving DecidableEq, Repr

structure Drive where
  entities : List Entity
  nextId : Nat
  pageLimit : Option Nat
deriving DecidableEq, Repr

/-- Python interpolation of the `id_parent` argument (possibly `None`)
into the listing query string. -/
def fmtParent : Option String → String
  | none => "None"
  | some s => s

/-- The name/parent/type filter carried by a `files().list` query. -/
structure Query where
  name : String
  parentStr : String
  folderOnly : Bool
deriving DecidableEq, Repr

def qMatches (q : Query) (e : Entity) : Bool :=
  (!q.folderOnly || e.isFolder) && e.parent == q.parentStr && e.name == q.name

/-- Query issued by `search_folder`
(`mimeType='application/vnd.google-apps.folder' and parents in '{id_parent}' and name = '{foldername}'`). -/
def folderQuery (n : String) (p : Option String) : Query :=
  ⟨n, fmtParent p, true⟩

/-- Query issued by `search_file`
(`parents in '{id_parent}' and name = '{filename}'`): no mimeType filter. -/
def fileQuery (n : String) (p : Option String) : Query :=
  ⟨n, fmtParent p, false⟩

/-- A response of `files().list(...).execute()`: the first page of results
plus the `nextPageToken` field (the source requests
`fields="nextPageToken, files(id, name)"` and always passes
`pageToken=None`). -/
structure PageResponse where
  files : List Entity
  nextPageToken : Option String
deriving DecidableEq, Repr

/-- Server side of one listing request with `pageToken=None`. -/
def Drive.listResponse (d : Drive) (q : Query) : PageResponse :=
  let ms := d.entities.filter (qMatches q)
  match d.pageLimit with
  | none => ⟨ms, none⟩
  | some k => ⟨ms.take k, if k < ms.length then some "nextPageToken" else none⟩

/-- The result-scanning loop shared by `search_folder` and `search_file`:
`drive_folder_id = None`, then `for file in response.get("files", []):
drive_folder_id = file.get("id")`. -/
def scanIds (files : List Entity) : Option String :=
  files.foldl (fun _ f => some f.id) none

/-- `GoogleDriveService.search_folder` (happy path, lines 121-160). -/
def search_folder (d : Drive) (foldername : String) (id_parent : Option String) : Option String :=
  scanIds (d.listResponse (folderQuery foldername id_parent)).files

/-- `GoogleDriveService.search_file` (happy path, lines 233-272). -/
def search_file (d : Drive) (filename : String) (id_parent : Option String) : Option String :=
  scanIds (d.listResponse (fileQuery filename id_parent)).files

/-- Opaque fresh ids handed out by the remote store for created entities. -/
def genId (n : Nat) : String := "gid" ++ toString n

/-- `GoogleDriveService.create_folder` (happy path, lines 162-194): creates a
folder-typed entity under `id_parent` and returns its id. -/
def create_folder (d : Drive) (foldername : String) (id_parent : Option String) :
    Drive × String :=
  let i := genId d.nextId
  (⟨d.entities ++ [⟨i, foldername, fmtParent id_parent, true⟩], d.nextId + 1, d.pageLimit⟩, i)

/-- `GoogleDriveService.upload_file` (happy path, lines 196-231): creates a
file entity named `filename` under `id_parent` and returns its id. The
`filepath` argument only feeds the media body and does not affect the
created metadata. -/
def upload_file (d : Drive) (filename filepath : String) (id_parent : Option String) :
    Drive × String :=
  let i := genId d.nextId
  (⟨d.entities ++ [⟨i, filename, fmtParent id_parent, false⟩], d.nextId + 1, d.pageLimit⟩, i)

/-- The `dirs_dict` Python dictionary, as an association list where
assignment prepends (shadowing reproduces dictionary overwrite). -/
abbrev Dict := List (String × String)

/-- `dirs_dict.get(k)`. -/
def dget (dict : Dict) (k : String) : Option String :=
  (dict.find? (fun kv => kv.fst == k)).map (fun kv => kv.snd)

/-- One `(path, subdirs, files)` triple yielded by `os.walk`. -/
structure Frame where
  path : String
  subdirs : List String
  files : List String
deriving DecidableEq, Repr

/-- A local directory's contents: named immediate subdirectories and
immediate file names. -/
inductive LTree where
  | node (subdirs : List (String × LTree)) (files : List String)

mutual

/-- `os.walk(dir)` in top-down order on a POSIX path separator: yield the
directory itself, then recursively walk each subdirectory in order. -/
def walk (path : String) (t : LTree) : List Frame :=
  match t with
  | .node sds fs => ⟨path, sds.map Prod.fst, fs⟩ :: walkChildren path sds

def walkChildren (path : String) (l : List (String × LTree)) : List Frame :=
  match l with
  | [] => []
  | (n, t) :: rest => walk (path ++ "/" ++ n) t ++ walkChildren path rest

end

/-- Body of `for subdir in subdirs` in `upload_folder` (lines 55-65). Note
that the guard is `if subdir not in dirs_dict` — the bare name, not the
full path `path + "/" + subdir` that is used as the inserted key. -/
def subdirStep (path : String) (st : Drive × Dict) (subdir : String) : Drive × Dict :=
  if (dget st.2 subdir).isSome then st
  else
    let new_id_parent := dget st.2 path
    match search_folder st.1 subdir new_id_parent with
    | some i => (st.1, (path ++ "/" ++ subdir, i) :: st.2)
    | none =>
      let r := create_folder st.1 subdir new_id_parent
      (r.1, (path ++ "/" ++ subdir, r.2) :: st.2)

/-- Body of `for file in files` in `upload_folder` (lines 67-73). -/
def fileStep (path : String) (st : Drive × Dict) (file : String) : Drive × Dict :=
  match search_file st.1 file (dget st.2 path) with
  | some _ => st
  | none => ((upload_file st.1 file (path ++ "/" ++ file) (dget st.2 path)).1, st.2)

/-- One iteration of `for path, subdirs, files in os.walk(dir)`:
the subdirectory loop, then the file loop. -/
def frameStep (st : Drive × Dict) (fr : Frame) : Drive × Dict :=
  fr.files.foldl (fileStep fr.path) (fr.subdirs.foldl (subdirStep fr.path) st)

def runFrames (st : Drive × Dict) (frs : List Frame) : Drive × Dict :=
  frs.foldl frameStep st

/-- `GoogleDriveService.upload_folder` (lines 37-76): seed
`dirs_dict = {dir: id_parent}` and process every walked frame. The
returned pair is the final remote state together with the final
`dirs_dict`. -/
def upload_folder (d : Drive) (dir : String) (t : LTree) (id_parent : String) :
    Drive × Dict :=
  runFrames (d, [(dir, id_parent)]) (walk dir t)

/-- The `for path in search.split('/')[1:]` loop of `path_exists`
(lines 104-118), with `dirs_dict` and `last_path` threaded through. -/
def peLoop (d : Drive) : List String → Dict → String → Bool
  | [], _, _ => true
  | p :: rest, dict, last_path =>
    let new_id_parent := dget dict last_path
    if (dget dict p).isSome then
      peLoop d rest dict (last_path ++ "/" ++ p)
    else
      match search_folder d p new_id_parent with
      | some i => peLoop d rest ((last_path ++ "/" ++ p, i) :: dict) (last_path ++ "/" ++ p)
      | none =>
        match search_file d p new_id_parent with
        | some i => peLoop d rest ((last_path ++ "/" ++ p, i) :: dict) (last_path ++ "/" ++ p)
        | none => false

/-- Python `str.split` with an explicit one-character separator, on the
character list: splitting keeps empty pieces and the empty string splits
to one empty piece. -/
def splitCh (c : Char) : List Char → List (List Char)
  | [] => [[]]
  | x :: xs =>
    match splitCh c xs with
    | [] => [[]]
    | g :: gs => if x = c then [] :: g :: gs else (x :: g) :: gs

/-- `search.split('/')` from the source. -/
def splitSlash (s : String) : List String :=
  (splitCh '/' s.data).map String.mk

/-- `GoogleDriveService.path_exists` (lines 78-118). `split('/')` never
returns an empty list, so the `[]` branch is unreachable; it is mapped to
the function's fall-through result `True`. -/
def path_exists (d : Drive) (search dir : String) (id_parent : String) : Bool :=
  match splitSlash search with
  | [] => true
  | c :: rest => peLoop d rest [(dir, id_parent)] c

def emptyDrive : Drive := ⟨[], 0, none⟩

/-! ### Claim C6: the `try/except HttpError` wrappers

Each primitive performs exactly one remote attempt; when the transport
fails the `except HttpError` clause reports the error and re-raises the
very same error object, and otherwise the happy-path result is returned.
A "not found" lookup outcome lives inside the success value (`ok none`),
never in the error channel. -/

structure HttpErr where
  code : Nat
  msg : String
deriving DecidableEq, Repr

/-- One `files().list(...).execute()` attempt: either the transport fails
with an `HttpError`, or the first-page response is returned. -/
def listAttempt (failure : Option HttpErr) (d : Drive) (q : Query) :
    Except HttpErr PageResponse :=
  match failure with
  | some err => Except.error err
  | none => Except.ok (d.listResponse q)

/-- `search_folder` with its `try/except` block (lines 137-160). -/
def search_folder_try (failure : Option HttpErr) (d : Drive) (foldername : String)
    (id_parent : Option String) : Except HttpErr (Option String) :=
  match listAttempt failure d (folderQuery foldername id_parent) with
  | Except.error err => Except.error err
  | Except.ok r => Except.ok (scanIds r.files)

/-- `search_file` with its `try/except` block (lines 249-272). -/
def search_file_try (failure : Option HttpErr) (d : Drive) (filename : String)
    (id_parent : Option String) : Except HttpErr (Option String) :=
  match listAttempt failure d (fileQuery filename id_parent) with
  | Except.error err => Except.error err
  | Except.ok r => Except.ok (scanIds r.files)

/-- One `files().create(...).execute()` attempt for `create_folder`. -/
def create_folder_try (failure : Option HttpErr) (d : Drive) (foldername : String)
    (id_parent : Option String) : Except HttpErr (Drive × String) :=
  match failure with
  | some err => Except.error err
  | none => Except.ok (create_folder d foldername id_parent)

/-- One media-upload `files().create(...).execute()` attempt for
`upload_file`. -/
def upload_file_try (failure : Option HttpErr) (d : Drive) (filename filepath : String)
    (id_parent : Option String) : Except HttpErr (Drive × String) :=
  match failure with
  | some err => Except.error err
  | none => Except.ok (upload_file d filename filepath id_parent)

/-- Modelled from the spec's words (§4.2): resolve the path components
left-to-right, probing each component first as a folder and, failing
that, as a file under the correspondingly-resolved remote parent,
advancing the parent to the found id; false as soon as both probes for a
component come back absent. -/
def chainExists (d : Drive) : Option String → List String → Bool
  | _, [] => true
  | parent, c :: rest =>
    match search_folder d c parent with
    | some i => chainExists d (some i) rest
    | none =>
      match search_file d c parent with
      | some i => chainExists d (some i) rest
      | none => false

def SP (d e : Drive) : Prop :=
  (∀ n p v, search_folder d n p = some v → search_folder e n p = some v) ∧
  (∀ x, x ∈ d.entities → x ∈ e.entities)

/-! Concrete inputs used by witnesses and counterexamples. -/

def tBug : LTree := .node [("a", .node [] ["f"])] []

def d5 : Drive := ⟨[⟨"F", "doc", "P", true⟩], 0, none⟩

def d8 : Drive :=
  ⟨[⟨"A", "a", "P", true⟩, ⟨"B", "b", "A", false⟩], 0, none⟩

def d10 : Drive := ⟨[⟨"F", "x", "P", true⟩], 0, some 0⟩

def dC2 : Drive := ⟨[⟨"A", "a", "P", true⟩], 0, none⟩

def tC3 : LTree := .node [("sub", .node [] ["b"])] ["a"]


/-! ### Basic lemmas about the listing primitives -/

theorem dget_cons (k v x : String) (dict : Dict) :
    dget ((k, v) :: dict) x = if (k == x) then some v else dget dict x := by
  rcases h : k == x with _ | _ <;> simp [dget, List.find?_cons, h]

theorem scan_foldl_acc (l : List Entity) : ∀ a : Option String,
    l.foldl (fun _ f => some f.id) a =
      match l.getLast? with
      | some e => some e.id
      | none => a := by
  induction l with
  | nil => intro a; rfl
  | cons x xs ih =>
    intro a
    rcases xs with _ | ⟨y, ys⟩
    · simp [List.foldl]
    · rw [List.foldl_cons, ih, List.getLast?_cons_cons]
      cases h4 : (y :: ys).getLast? with
      | none => exact absurd (List.getLast?_eq_none_iff.mp h4) (by simp)
      | some e => rfl

theorem scanIds_eq_getLast (l : List Entity) :
    scanIds l = l.getLast?.map Entity.id := by
  rw [scanIds, scan_foldl_acc]
  rcases h : l.getLast? with _ | e <;> simp

theorem listResponse_files_of_unlimited (d : Drive) (q : Query) (hpl : d.pageLimit = none) :
    (d.listResponse q).files = d.entities.filter (qMatches q) := by
  simp [Drive.listResponse, hpl]

theorem scan_listResponse_none_iff (d : Drive) (q : Query) (hpl : d.pageLimit = none) :
    scanIds (d.listResponse q).files = none ↔ d.entities.filter (qMatches q) = [] := by
  rw [scanIds_eq_getLast, listResponse_files_of_unlimited d q hpl]
  simp [List.getLast?_eq_none_iff]

theorem search_folder_none_iff (d : Drive) (n : String) (p : Option String)
    (hpl : d.pageLimit = none) :
    search_folder d n p = none ↔ d.entities.filter (qMatches (folderQuery n p)) = [] :=
  scan_listResponse_none_iff d _ hpl

theorem search_file_none_iff (d : Drive) (n : String) (p : Option String)
    (hpl : d.pageLimit = none) :
    search_file d n p = none ↔ d.entities.filter (qMatches (fileQuery n p)) = [] :=
  scan_listResponse_none_iff d _ hpl

/-! ### Claim C4 -/

/-- The claim C4: for every name and parent id, `search_folder` and
`search_file` return the id of the last match in the result set returned
by the listing (last-wins), and `none` when the result set is empty
(`getLast?` of the empty list is `none`). -/
theorem search_last_match (d : Drive) (n : String) (p : Option String) :
    search_folder d n p =
        ((d.listResponse (folderQuery n p)).files.getLast?).map Entity.id ∧
      search_file d n p =
        ((d.listResponse (fileQuery n p)).files.getLast?).map Entity.id :=
  ⟨scanIds_eq_getLast _, scanIds_eq_getLast _⟩

/-! ### Claim C9 -/

/-- The claim C9: when the search string has no slash (its split is a
single component), `path_exists` returns `true` for every remote state
whatsoever: the loop runs over the empty tail, so the single segment is
never probed as a folder or a file. -/
theorem path_exists_single_component (d : Drive) (s dir id_parent c : String)
    (h : splitSlash s = [c]) :
    path_exists d s dir id_parent = true := by
  unfold path_exists
  rw [h]
  rfl

theorem path_exists_single_component_witness :
    splitSlash "alpha" = ["alpha"] ∧ path_exists emptyDrive "alpha" "r" "P" = true :=
  ⟨by decide, path_exists_single_component emptyDrive "alpha" "r" "P" "alpha" (by decide)⟩

/-- The claim C6: a remote-call failure in any of the four primitives is
re-raised to the caller unchanged (the error value is propagated as-is,
with a single attempt and no retry), while on success the lookup
primitives deliver their possibly-`none` result in the success channel —
"not found" is `ok none`, never an error. -/
theorem primitives_propagate_errors (err : HttpErr) (d : Drive) (n f fp : String)
    (p : Option String) :
    search_folder_try (some err) d n p = Except.error err ∧
      search_file_try (some err) d n p = Except.error err ∧
      create_folder_try (some err) d n p = Except.error err ∧
      upload_file_try (some err) d f fp p = Except.error err ∧
      search_folder_try none d n p = Except.ok (search_folder d n p) ∧
      search_file_try none d n p = Except.ok (search_file d n p) :=
  ⟨rfl, rfl, rfl, rfl, rfl, rfl⟩

theorem qMatches_folder_iff (n : String) (p : Option String) (e : Entity) :
    qMatches (folderQuery n p) e = true ↔
      e.isFolder = true ∧ e.parent = fmtParent p ∧ e.name = n := by
  simp [qMatches, folderQuery, and_assoc]

theorem qMatches_file_iff (n : String) (p : Option String) (e : Entity) :
    qMatches (fileQuery n p) e = true ↔ e.parent = fmtParent p ∧ e.name = n := by
  simp [qMatches, fileQuery]

/-! ### Claim C10 -/

/-- The claim C10: the two search primitives issue one listing request
with `pageToken=None` and read only the `files` of that first page, never
following `nextPageToken`. On a server whose first page is empty while
results remain (`pageLimit = some 0`), a matching entity `e` is reported
as absent by both primitives even though the response advertises a next
page. -/
theorem search_first_page_only (d : Drive) (n : String) (p : Option String) (e : Entity)
    (hpl : d.pageLimit = some 0) (he : e ∈ d.entities)
    (hm : qMatches (folderQuery n p) e = true) :
    (d.listResponse (folderQuery n p)).files = [] ∧
      (d.listResponse (folderQuery n p)).nextPageToken = some "nextPageToken" ∧
      search_folder d n p = none ∧
      (d.listResponse (fileQuery n p)).files = [] ∧
      (d.listResponse (fileQuery n p)).nextPageToken = some "nextPageToken" ∧
      search_file d n p = none := by
  obtain ⟨hf, hp', hn⟩ := (qMatches_folder_iff n p e).mp hm
  have hmf : qMatches (fileQuery n p) e = true := (qMatches_file_iff n p e).mpr ⟨hp', hn⟩
  have hmem : e ∈ d.entities.filter (qMatches (folderQuery n p)) :=
    List.mem_filter.mpr ⟨he, hm⟩
  have hmemf : e ∈ d.entities.filter (qMatches (fileQuery n p)) :=
    List.mem_filter.mpr ⟨he, hmf⟩
  have hlen : 0 < (d.entities.filter (qMatches (folderQuery n p))).length :=
    List.length_pos.mpr (List.ne_nil_of_mem hmem)
  have hlenf : 0 < (d.entities.filter (qMatches (fileQuery n p))).length :=
    List.length_pos.mpr (List.ne_nil_of_mem hmemf)
  refine ⟨?_, ?_, ?_, ?_, ?_, ?_⟩ <;>
    simp [Drive.listResponse, hpl, search_folder, search_file, scanIds, hlen, hlenf]

theorem search_first_page_only_witness :
    search_folder d10 "x" (some "P") = none ∧ search_file d10 "x" (some "P") = none :=
  ⟨(search_first_page_only d10 "x" (some "P") ⟨"F", "x", "P", true⟩ rfl (by decide)
      (by decide)).2.2.1,
   (search_first_page_only d10 "x" (some "P") ⟨"F", "x", "P", true⟩ rfl (by decide)
      (by decide)).2.2.2.2.2⟩

/-! ### Claim C5 -/

/-- The claim C5: `search_file`'s query carries no type filter, so any
entity — folders included — named `n` under the parent satisfies a file
lookup, whereas `search_folder` is satisfied only by folder-typed
entities and reports absence when every such named entity is a
non-folder. -/
theorem search_file_matches_any_type (d : Drive) (n : String) (p : Option String) (e : Entity)
    (hpl : d.pageLimit = none) (he : e ∈ d.entities) (hn : e.name = n)
    (hp : e.parent = fmtParent p) :
    (search_file d n p).isSome = true ∧
      (e.isFolder = true → (search_folder d n p).isSome = true) ∧
      ((∀ x ∈ d.entities, x.name = n → x.parent = fmtParent p → x.isFolder = false) →
        search_folder d n p = none) := by
  refine ⟨?_, ?_, ?_⟩
  · rw [Option.isSome_iff_ne_none]
    rw [ne_eq, search_file_none_iff d n p hpl]
    intro hnil
    exact (List.filter_eq_nil_iff.mp hnil e he) ((qMatches_file_iff n p e).mpr ⟨hp, hn⟩)
  · intro hf
    rw [Option.isSome_iff_ne_none]
    rw [ne_eq, search_folder_none_iff d n p hpl]
    intro hnil
    exact (List.filter_eq_nil_iff.mp hnil e he) ((qMatches_folder_iff n p e).mpr ⟨hf, hp, hn⟩)
  · intro hall
    rw [search_folder_none_iff d n p hpl]
    refine List.filter_eq_nil_iff.mpr fun x hx hq => ?_
    obtain ⟨hfo, hpar, hnm⟩ := (qMatches_folder_iff n p x).mp hq
    rw [hall x hx hnm hpar] at hfo
    cases hfo

theorem search_file_matches_any_type_witness :
    (search_file d5 "doc" (some "P")).isSome = true ∧
      (search_folder d5 "doc" (some "P")).isSome = true :=
  ⟨(search_file_matches_any_type d5 "doc" (some "P") ⟨"F", "doc", "P", true⟩ rfl (by decide)
      rfl rfl).1,
   (search_file_matches_any_type d5 "doc" (some "P") ⟨"F", "doc", "P", true⟩ rfl (by decide)
      rfl rfl).2.1 rfl⟩

/-! ### Claim C1 -/

/-- The claim C1 against the code: the spec says the lookup-or-create step
for subdirectory `s` of visited directory `d` is guarded by the presence
of the full path `d/s` in `dirs_dict`, and that `dirs_dict` always holds a
binding for `d` itself. The code instead guards with the bare name
(`if subdir not in dirs_dict`). Failing input: `upload_folder` on local
root `"a"` whose subtree contains a subdirectory also named `"a"`
(`a/a/f`). The bare name `"a"` collides with the seeded root key, the
lookup-or-create step for `a/a` is skipped, no binding for `"a/a"` is ever
inserted (first conjunct), and the walk then processes directory `a/a`
with remote parent `None`: its file `f` is searched and uploaded under the
literal parent `'None'` (second conjunct) — the remote parent id passed on
was absent, contradicting the claim. -/
theorem upload_folder_bare_name_guard :
    dget (upload_folder emptyDrive "a" tBug "P").2 ("a" ++ "/" ++ "a") = none ∧
      (upload_folder emptyDrive "a" tBug "P").1.entities =
        [⟨genId 0, "f", "None", false⟩] := by
  exact ⟨by decide, by decide⟩

/-! ### Claim C2 :  counterexample -/

/-- Counterexample to the claim C2 as stated: on an empty remote store
(`emptyDrive.entities = []`) no component can be "found remotely as a
folder or as a file" — both probes for the single component `"x"` of the
search path come back absent — yet `path_exists` returns `true`, because
the loop iterates over `split('/')[1:]` and never probes the first
component. -/
theorem path_exists_unprobed_first_component :
    path_exists emptyDrive "x" "root" "P" = true ∧
      search_folder emptyDrive "x" (some "P") = none ∧
      search_file emptyDrive "x" (some "P") = none ∧
      emptyDrive.entities = [] :=
  ⟨by decide, by decide, by decide, rfl⟩

/-! ### Claim C7: the remote entity list only ever grows -/

theorem subdirStep_extends (p : String) (st : Drive × Dict) (s : String) :
    ∃ ext, (subdirStep p st s).1.entities = st.1.entities ++ ext ∧
      (subdirStep p st s).1.pageLimit = st.1.pageLimit := by
  unfold subdirStep
  split
  · exact ⟨[], by simp, rfl⟩
  · dsimp only
    rcases hsf : search_folder st.1 s (dget st.2 p) with _ | i
    · exact ⟨[⟨genId st.1.nextId, s, fmtParent (dget st.2 p), true⟩], rfl, rfl⟩
    · exact ⟨[], by simp, rfl⟩

theorem fileStep_extends (p : String) (st : Drive × Dict) (f : String) :
    ∃ ext, (fileStep p st f).1.entities = st.1.entities ++ ext ∧
      (fileStep p st f).1.pageLimit = st.1.pageLimit := by
  unfold fileStep
  split
  · exact ⟨[], by simp, rfl⟩
  · exact ⟨[⟨genId st.1.nextId, f, fmtParent (dget st.2 p), false⟩], rfl, rfl⟩

theorem foldl_extends {α : Type} (step : Drive × Dict → α → Drive × Dict)
    (hstep : ∀ st a, ∃ ext, (step st a).1.entities = st.1.entities ++ ext ∧
      (step st a).1.pageLimit = st.1.pageLimit)
    (l : List α) (st : Drive × Dict) :
    ∃ ext, (l.foldl step st).1.entities = st.1.entities ++ ext ∧
      (l.foldl step st).1.pageLimit = st.1.pageLimit := by
  induction l generalizing st with
  | nil => exact ⟨[], by simp, rfl⟩
  | cons a l ih =>
    obtain ⟨e1, h1, h1p⟩ := hstep st a
    obtain ⟨e2, h2, h2p⟩ := ih (step st a)
    refine ⟨e1 ++ e2, ?_, ?_⟩
    · rw [List.foldl_cons, h2, h1, List.append_assoc]
    · rw [List.foldl_cons, h2p, h1p]

theorem frameStep_extends (st : Drive × Dict) (fr : Frame) :
    ∃ ext, (frameStep st fr).1.entities = st.1.entities ++ ext ∧
      (frameStep st fr).1.pageLimit = st.1.pageLimit := by
  unfold frameStep
  obtain ⟨e1, h1, h1p⟩ :=
    foldl_extends (subdirStep fr.path) (subdirStep_extends fr.path · ·) fr.subdirs st
  obtain ⟨e2, h2, h2p⟩ := foldl_extends (fileStep fr.path) (fileStep_extends fr.path · ·)
    fr.files (fr.subdirs.foldl (subdirStep fr.path) st)
  exact ⟨e1 ++ e2, by rw [h2, h1, List.append_assoc], by rw [h2p, h1p]⟩

theorem runFrames_extends (st : Drive × Dict) (frs : List Frame) :
    ∃ ext, (runFrames st frs).1.entities = st.1.entities ++ ext ∧
      (runFrames st frs).1.pageLimit = st.1.pageLimit :=
  foldl_extends frameStep frameStep_extends frs st

/-- The claim C7: no operation deletes, renames, moves, or overwrites an
existing remote entity. `upload_folder` only appends newly created
entities after the pre-existing ones, which stay unchanged in place
(first conjunct); `create_folder` and `upload_file` each append exactly
one new entity (remaining conjuncts). The two search primitives and
`path_exists` return no drive state at all — by construction they consist
of a single listing query — so every remote interaction of the system is
a listing or a creation. -/
theorem remote_entities_append_only (d : Drive) (dir : String) (t : LTree)
    (idp n f fp : String) (p : Option String) :
    (∃ ext, (upload_folder d dir t idp).1.entities = d.entities ++ ext) ∧
      (create_folder d n p).1.entities =
        d.entities ++ [⟨genId d.nextId, n, fmtParent p, true⟩] ∧
      (upload_file d f fp p).1.entities =
        d.entities ++ [⟨genId d.nextId, f, fmtParent p, false⟩] := by
  refine ⟨?_, rfl, rfl⟩
  obtain ⟨ext, h, _⟩ := runFrames_extends (d, [(dir, idp)]) (walk dir t)
  exact ⟨ext, h⟩

/-! ### Claim C8 -/

theorem peLoop_append_true (d : Drive) (r1 r2 : List String) :
    ∀ dict lp, peLoop d (r1 ++ r2) dict lp = true → peLoop d r1 dict lp = true := by
  induction r1 with
  | nil => intro dict lp _; rfl
  | cons p r ih =>
    intro dict lp h
    rw [List.cons_append] at h
    simp only [peLoop] at h ⊢
    by_cases hif : (dget dict p).isSome = true
    · rw [if_pos hif] at h ⊢
      exact ih _ _ h
    · rw [if_neg hif] at h ⊢
      rcases hsf : search_folder d p (dget dict lp) with _ | i
      · rw [hsf] at h
        rcases hsfile : search_file d p (dget dict lp) with _ | j
        · rw [hsfile] at h
          simp at h
        · rw [hsfile] at h
          exact ih _ _ h
      · rw [hsf] at h
        exact ih _ _ h

/-- The claim C8: if `path_exists(s, dir, id_parent)` returns true then
`path_exists` also returns true on every string whose `split('/')` is a
(in particular strict) prefix of the split of `s`: each prefix runs
exactly the leading probes of the longer run, all of which succeeded, so
every strict prefix of `s` also resolves to an existing remote entity in
the sense of `path_exists`. -/
theorem path_exists_monotone (d : Drive) (s sp dir id_parent : String)
    (ts : List String) (hsplit : splitSlash s = splitSlash sp ++ ts)
    (h : path_exists d s dir id_parent = true) :
    path_exists d sp dir id_parent = true := by
  unfold path_exists at h ⊢
  rcases hsp : splitSlash sp with _ | ⟨c, rest⟩
  · rfl
  · rw [hsp, List.cons_append] at hsplit
    rw [hsplit] at h
    exact peLoop_append_true d rest ts [(dir, id_parent)] c h

theorem path_exists_monotone_witness :
    splitSlash "r/a/b" = splitSlash "r/a" ++ ["b"] ∧
      path_exists d8 "r/a/b" "r" "P" = true ∧
      path_exists d8 "r/a" "r" "P" = true :=
  ⟨by decide, by decide,
   path_exists_monotone d8 "r/a/b" "r/a" "r" "P" ["b"] (by decide) (by decide)⟩

/-! ### Claim C2 : amended statement -/


theorem splitCh_cons_of_nil (c x : Char) (xs : List Char) (h : splitCh c xs = []) :
    splitCh c (x :: xs) = [[]] := by
  have he : splitCh c (x :: xs) =
      match splitCh c xs with
      | [] => [[]]
      | g :: gs => if x = c then [] :: g :: gs else (x :: g) :: gs := rfl
  rw [he, h]

theorem splitCh_cons_of_cons (c x : Char) (xs g0 : List Char) (gs : List (List Char))
    (h : splitCh c xs = g0 :: gs) :
    splitCh c (x :: xs) = if x = c then [] :: g0 :: gs else (x :: g0) :: gs := by
  have he : splitCh c (x :: xs) =
      match splitCh c xs with
      | [] => [[]]
      | g :: gs => if x = c then [] :: g :: gs else (x :: g) :: gs := rfl
  rw [he, h]

theorem splitCh_no_sep (c : Char) (l : List Char) : ∀ g ∈ splitCh c l, c ∉ g := by
  induction l with
  | nil =>
    intro g hg
    have he : splitCh c [] = [[]] := rfl
    rw [he, List.mem_singleton] at hg
    simp [hg]
  | cons x xs ih =>
    intro g hg
    rcases hrec : splitCh c xs with _ | ⟨g0, gs⟩
    · rw [splitCh_cons_of_nil c x xs hrec, List.mem_singleton] at hg
      simp [hg]
    · rw [splitCh_cons_of_cons c x xs g0 gs hrec] at hg
      by_cases hx : x = c
      · rw [if_pos hx] at hg
        rcases List.mem_cons.mp hg with h1 | h2
        · simp [h1]
        · exact ih g (by rw [hrec]; exact h2)
      · rw [if_neg hx] at hg
        rcases List.mem_cons.mp hg with h1 | h2
        · subst h1
          intro hc
          rcases List.mem_cons.mp hc with h3 | h4
          · exact hx h3.symm
          · exact ih g0 (by rw [hrec]; exact List.mem_cons_self g0 gs) h4
        · exact ih g (by rw [hrec]; exact List.mem_cons.mpr (Or.inr h2))

theorem splitSlash_no_slash (s : String) : ∀ x ∈ splitSlash s, '/' ∉ x.data := by
  intro x hx
  obtain ⟨g, hg, rfl⟩ := List.mem_map.mp hx
  exact splitCh_no_sep '/' s.data g hg

theorem slash_mem (a b : String) : '/' ∈ (a ++ "/" ++ b).data := by
  rw [String.data_append, String.data_append]
  simp [show ("/" : String).data = ['/'] from rfl]

theorem peLoop_eq_chain (d : Drive) (dir : String) :
    ∀ (rest : List String) (dict : Dict) (lp : String) (parent : Option String),
      dget dict lp = parent →
      (∀ x : String, '/' ∉ x.data → x ≠ dir → dget dict x = none) →
      (∀ x ∈ rest, '/' ∉ x.data ∧ x ≠ dir) →
      peLoop d rest dict lp = chainExists d parent rest := by
  intro rest
  induction rest with
  | nil => intro dict lp parent hlp hinv hall; rfl
  | cons p r ih =>
    intro dict lp parent hlp hinv hall
    obtain ⟨hpns, hpne⟩ := hall p (List.mem_cons_self p r)
    have hall' : ∀ x ∈ r, '/' ∉ x.data ∧ x ≠ dir :=
      fun x hx => hall x (List.mem_cons.mpr (Or.inr hx))
    have hguard : dget dict p = none := hinv p hpns hpne
    simp only [peLoop, chainExists]
    rw [hlp, hguard]
    rw [if_neg (by simp)]
    have hmaintain : ∀ i : String,
        (∀ x : String, '/' ∉ x.data → x ≠ dir →
          dget ((lp ++ "/" ++ p, i) :: dict) x = none) := by
      intro i x hxs hxne
      rw [dget_cons]
      have hne : (lp ++ "/" ++ p) ≠ x := fun he => hxs (he ▸ slash_mem lp p)
      rw [beq_eq_false_iff_ne.mpr hne]
      exact hinv x hxs hxne
    have hself : ∀ i : String,
        dget ((lp ++ "/" ++ p, i) :: dict) (lp ++ "/" ++ p) = some i := by
      intro i
      rw [dget_cons, beq_self_eq_true]
      rfl
    rcases hsf : search_folder d p parent with _ | i
    · rcases hsfile : search_file d p parent with _ | i
      · rfl
      · exact ih _ _ _ (hself i) (hmaintain i) hall'
    · exact ih _ _ _ (hself i) (hmaintain i) hall'

/-- The claim C2, amended: `path_exists(s, dir, id_parent)` never probes
the first component of `s`; that component only selects the starting
remote parent through the seeded map — `id_parent` when it equals `dir`,
absent otherwise. Provided no later component equals `dir` (a bare-name
collision with the seeded map key would silently skip that component's
probe), `path_exists` agrees with the left-to-right resolution chain of
the spec on the remaining components: each is probed first as a folder
and, failing that, as a file under the correspondingly-resolved remote
parent, and the function returns false as soon as both probes for one
component come back absent. -/
theorem path_exists_eq_chain (d : Drive) (s dir id_parent c : String)
    (rest : List String) (hsplit : splitSlash s = c :: rest)
    (hrest : ∀ x ∈ rest, x ≠ dir) :
    path_exists d s dir id_parent =
      chainExists d (if c = dir then some id_parent else none) rest := by
  unfold path_exists
  rw [hsplit]
  apply peLoop_eq_chain d dir rest [(dir, id_parent)] c
  · rw [dget_cons]
    by_cases hc : c = dir
    · rw [if_pos hc, hc, beq_self_eq_true]
      rfl
    · rw [if_neg hc, beq_eq_false_iff_ne.mpr (fun he => hc he.symm)]
      rfl
  · intro x hxs hxne
    rw [dget_cons, beq_eq_false_iff_ne.mpr (fun he => hxne he.symm)]
    rfl
  · intro x hx
    refine ⟨?_, hrest x hx⟩
    exact splitSlash_no_slash s x (hsplit ▸ List.mem_cons.mpr (Or.inr hx))

theorem path_exists_eq_chain_witness :
    splitSlash "root/a" = ["root", "a"] ∧
      path_exists dC2 "root/a" "root" "P" =
        chainExists dC2 (if "root" = "root" then some "P" else none) ["a"] :=
  ⟨by decide,
   path_exists_eq_chain dC2 "root/a" "root" "P" "root" ["a"] (by decide) (by decide)⟩

/-! ### Claim C3 : idempotence of `upload_folder`

Strategy: a second run over the final remote state replays the first run
step by step. The relation `SP d e` records what a later state `e` of the
same run is forced to preserve about an earlier state `d`: successful
folder lookups keep their exact value (a folder matching a query is only
ever created after a failed lookup of that same query, which cannot
happen once the lookup succeeds), and entities are never removed. -/

theorem SP_refl (d : Drive) : SP d d := ⟨fun _ _ _ h => h, fun _ h => h⟩

theorem SP_trans {a b c : Drive} (h1 : SP a b) (h2 : SP b c) : SP a c :=
  ⟨fun n p v h => h2.1 n p v (h1.1 n p v h), fun x h => h2.2 x (h1.2 x h)⟩

theorem scan_ne_none_of_mem (d : Drive) (q : Query) (x : Entity) (hpl : d.pageLimit = none)
    (hx : x ∈ d.entities) (hm : qMatches q x = true) :
    scanIds (d.listResponse q).files ≠ none := by
  intro hnone
  rw [scan_listResponse_none_iff d q hpl] at hnone
  exact (List.filter_eq_nil_iff.mp hnone x hx) hm

theorem scan_matches_append_no (d d2 : Drive) (q : Query) (e' : Entity)
    (hpl : d.pageLimit = none) (hpl2 : d2.pageLimit = none)
    (h2e : d2.entities = d.entities ++ [e']) (hm : qMatches q e' = false) :
    scanIds (d2.listResponse q).files = scanIds (d.listResponse q).files := by
  rw [listResponse_files_of_unlimited d2 q hpl2, listResponse_files_of_unlimited d q hpl,
    h2e, List.filter_append]
  have hnil : List.filter (qMatches q) [e'] = [] := by
    simp [List.filter_cons, hm]
  rw [hnil, List.append_nil]

theorem scan_matches_append_yes (d d2 : Drive) (q : Query) (e' : Entity)
    (hpl2 : d2.pageLimit = none) (h2e : d2.entities = d.entities ++ [e'])
    (hm : qMatches q e' = true) :
    scanIds (d2.listResponse q).files = some e'.id := by
  rw [scanIds_eq_getLast, listResponse_files_of_unlimited d2 q hpl2, h2e, List.filter_append]
  have hone : List.filter (qMatches q) [e'] = [e'] := by
    simp [List.filter_cons, hm]
  rw [hone, List.getLast?_concat]
  rfl

theorem create_folder_SP (d : Drive) (s : String) (np : Option String)
    (hpl : d.pageLimit = none) (hsf : search_folder d s np = none) :
    SP d (create_folder d s np).1 := by
  constructor
  · intro n pp v hv
    rcases hm : qMatches (folderQuery n pp) ⟨genId d.nextId, s, fmtParent np, true⟩ with _ | _
    · rw [search_folder, scan_matches_append_no d (create_folder d s np).1 (folderQuery n pp)
        ⟨genId d.nextId, s, fmtParent np, true⟩ hpl (by rw [show (create_folder d s np).1.pageLimit = d.pageLimit from rfl, hpl]) rfl hm]
      exact hv
    · obtain ⟨_, hpar, hname⟩ := (qMatches_folder_iff n pp _).mp hm
      have hname' : s = n := hname
      have hpar' : fmtParent np = fmtParent pp := hpar
      have hq : folderQuery n pp = folderQuery s np := by
        simp [folderQuery, ← hname', ← hpar']
      have heq : search_folder d n pp = search_folder d s np := by
        unfold search_folder
        rw [hq]
      rw [heq, hsf] at hv
      exact absurd hv (by simp)
  · intro x hx
    exact List.mem_append.mpr (Or.inl hx)

theorem upload_file_SP (d : Drive) (f fp : String) (np : Option String)
    (hpl : d.pageLimit = none) :
    SP d (upload_file d f fp np).1 := by
  constructor
  · intro n pp v hv
    have hm : qMatches (folderQuery n pp) ⟨genId d.nextId, f, fmtParent np, false⟩ = false := rfl
    rw [search_folder, scan_matches_append_no d (upload_file d f fp np).1 (folderQuery n pp)
      ⟨genId d.nextId, f, fmtParent np, false⟩ hpl (by rw [show (upload_file d f fp np).1.pageLimit = d.pageLimit from rfl, hpl]) rfl hm]
    exact hv
  · intro x hx
    exact List.mem_append.mpr (Or.inl hx)

theorem subdirStep_SP (p : String) (st : Drive × Dict) (s : String)
    (hpl : st.1.pageLimit = none) :
    SP st.1 (subdirStep p st s).1 := by
  unfold subdirStep
  split
  · exact SP_refl _
  · dsimp only
    rcases hsf : search_folder st.1 s (dget st.2 p) with _ | i
    · exact create_folder_SP st.1 s (dget st.2 p) hpl hsf
    · exact SP_refl _

theorem fileStep_SP (p : String) (st : Drive × Dict) (f : String)
    (hpl : st.1.pageLimit = none) :
    SP st.1 (fileStep p st f).1 := by
  unfold fileStep
  rcases hsf : search_file st.1 f (dget st.2 p) with _ | i
  · exact upload_file_SP st.1 f (p ++ "/" ++ f) (dget st.2 p) hpl
  · exact SP_refl _

theorem subdirStep_pageLimit (p : String) (st : Drive × Dict) (s : String) :
    (subdirStep p st s).1.pageLimit = st.1.pageLimit := by
  obtain ⟨_, _, h⟩ := subdirStep_extends p st s
  exact h

theorem fileStep_pageLimit (p : String) (st : Drive × Dict) (f : String) :
    (fileStep p st f).1.pageLimit = st.1.pageLimit := by
  obtain ⟨_, _, h⟩ := fileStep_extends p st f
  exact h

theorem frameStep_pageLimit (st : Drive × Dict) (fr : Frame) :
    (frameStep st fr).1.pageLimit = st.1.pageLimit := by
  obtain ⟨_, _, h⟩ := frameStep_extends st fr
  exact h

theorem foldl_SP {α : Type} (step : Drive × Dict → α → Drive × Dict)
    (hstepSP : ∀ st a, st.1.pageLimit = none → SP st.1 (step st a).1)
    (hsteppl : ∀ st a, (step st a).1.pageLimit = st.1.pageLimit)
    (l : List α) :
    ∀ st : Drive × Dict, st.1.pageLimit = none →
      SP st.1 (l.foldl step st).1 ∧ (l.foldl step st).1.pageLimit = none := by
  induction l with
  | nil => intro st hpl; exact ⟨SP_refl _, hpl⟩
  | cons a l ih =>
    intro st hpl
    rw [List.foldl_cons]
    have hpl' : (step st a).1.pageLimit = none := by rw [hsteppl st a]; exact hpl
    obtain ⟨hsp, hplf⟩ := ih (step st a) hpl'
    exact ⟨SP_trans (hstepSP st a hpl) hsp, hplf⟩

theorem frameStep_SP (st : Drive × Dict) (fr : Frame) (hpl : st.1.pageLimit = none) :
    SP st.1 (frameStep st fr).1 := by
  unfold frameStep
  obtain ⟨h1, h1pl⟩ := foldl_SP (subdirStep fr.path) (fun st a h => subdirStep_SP fr.path st a h)
    (fun st a => subdirStep_pageLimit fr.path st a) fr.subdirs st hpl
  obtain ⟨h2, _⟩ := foldl_SP (fileStep fr.path) (fun st a h => fileStep_SP fr.path st a h)
    (fun st a => fileStep_pageLimit fr.path st a) fr.files
    (fr.subdirs.foldl (subdirStep fr.path) st) h1pl
  exact SP_trans h1 h2

theorem subdirStep_replay (p : String) (st : Drive × Dict) (s : String) (E : Drive)
    (hpl : st.1.pageLimit = none) (hplE : E.pageLimit = none)
    (hsp : SP (subdirStep p st s).1 E) :
    subdirStep p (E, st.2) s = (E, (subdirStep p st s).2) := by
  rcases hguard : (dget st.2 s).isSome with _ | _
  · rcases hsf : search_folder st.1 s (dget st.2 p) with _ | i
    · have hstep : subdirStep p st s =
          ((create_folder st.1 s (dget st.2 p)).1,
            (p ++ "/" ++ s, (create_folder st.1 s (dget st.2 p)).2) :: st.2) := by
        simp [subdirStep, hguard, hsf]
      have hD : search_folder (create_folder st.1 s (dget st.2 p)).1 s (dget st.2 p) =
          some (genId st.1.nextId) := by
        rw [search_folder]
        exact scan_matches_append_yes st.1 _ (folderQuery s (dget st.2 p))
          ⟨genId st.1.nextId, s, fmtParent (dget st.2 p), true⟩
          (by rw [show (create_folder st.1 s (dget st.2 p)).1.pageLimit =
            st.1.pageLimit from rfl, hpl]) rfl (by simp [qMatches, folderQuery])
      rw [hstep] at hsp
      have hE : search_folder E s (dget st.2 p) = some (genId st.1.nextId) :=
        hsp.1 s (dget st.2 p) (genId st.1.nextId) hD
      rw [hstep]
      simp [subdirStep, hguard, hE]
      rfl
    · have hstep : subdirStep p st s = (st.1, (p ++ "/" ++ s, i) :: st.2) := by
        simp [subdirStep, hguard, hsf]
      rw [hstep] at hsp
      have hE : search_folder E s (dget st.2 p) = some i := hsp.1 s (dget st.2 p) i hsf
      rw [hstep]
      simp [subdirStep, hguard, hE]
  · have hstep : subdirStep p st s = st := by simp [subdirStep, hguard]
    rw [hstep]
    simp [subdirStep, hguard]

theorem fileStep_replay (p : String) (st : Drive × Dict) (f : String) (E : Drive)
    (hpl : st.1.pageLimit = none) (hplE : E.pageLimit = none)
    (hsp : SP (fileStep p st f).1 E) :
    fileStep p (E, st.2) f = (E, (fileStep p st f).2) := by
  rcases hsf : search_file st.1 f (dget st.2 p) with _ | i
  · have hstep : fileStep p st f =
        ((upload_file st.1 f (p ++ "/" ++ f) (dget st.2 p)).1, st.2) := by
      simp [fileStep, hsf]
    rw [hstep] at hsp
    have hmemD : (⟨genId st.1.nextId, f, fmtParent (dget st.2 p), false⟩ : Entity) ∈
        (upload_file st.1 f (p ++ "/" ++ f) (dget st.2 p)).1.entities := by
      simp [upload_file]
    have hmemE := hsp.2 _ hmemD
    have hne : search_file E f (dget st.2 p) ≠ none := by
      rw [search_file]
      exact scan_ne_none_of_mem E (fileQuery f (dget st.2 p)) _ hplE hmemE
        (by simp [qMatches, fileQuery])
    rw [hstep]
    rcases hsE : search_file E f (dget st.2 p) with _ | j
    · exact absurd hsE hne
    · simp [fileStep, hsE]
  · have hstep : fileStep p st f = st := by simp [fileStep, hsf]
    rw [hstep] at hsp
    have hnn : st.1.entities.filter (qMatches (fileQuery f (dget st.2 p))) ≠ [] := by
      intro hnil
      have hcontr := (search_file_none_iff st.1 f (dget st.2 p) hpl).mpr hnil
      rw [hcontr] at hsf
      simp at hsf
    obtain ⟨x, hxmem⟩ := List.exists_mem_of_ne_nil _ hnn
    obtain ⟨hxel, hxq⟩ := List.mem_filter.mp hxmem
    have hxE := hsp.2 x hxel
    have hne : search_file E f (dget st.2 p) ≠ none := by
      rw [search_file]
      exact scan_ne_none_of_mem E (fileQuery f (dget st.2 p)) x hplE hxE hxq
    rw [hstep]
    rcases hsE : search_file E f (dget st.2 p) with _ | j
    · exact absurd hsE hne
    · simp [fileStep, hsE]

theorem foldl_replay {α : Type} (step : Drive × Dict → α → Drive × Dict)
    (hstepSP : ∀ st a, st.1.pageLimit = none → SP st.1 (step st a).1)
    (hsteppl : ∀ st a, (step st a).1.pageLimit = st.1.pageLimit)
    (hstepreplay : ∀ st a E, st.1.pageLimit = none → E.pageLimit = none →
      SP (step st a).1 E → step (E, st.2) a = (E, (step st a).2))
    (l : List α) :
    ∀ (st : Drive × Dict) (E : Drive), st.1.pageLimit = none → E.pageLimit = none →
      SP (l.foldl step st).1 E →
      l.foldl step (E, st.2) = (E, (l.foldl step st).2) := by
  induction l with
  | nil => intro st E _ _ _; rfl
  | cons a l ih =>
    intro st E hpl hplE hsp
    rw [List.foldl_cons, List.foldl_cons]
    have hpl' : (step st a).1.pageLimit = none := by rw [hsteppl st a]; exact hpl
    have hsp1 : SP (step st a).1 E :=
      SP_trans (foldl_SP step hstepSP hsteppl l (step st a) hpl').1 hsp
    rw [hstepreplay st a E hpl hplE hsp1]
    exact ih (step st a) E hpl' hplE hsp

theorem frameStep_replay (st : Drive × Dict) (fr : Frame) (E : Drive)
    (hpl : st.1.pageLimit = none) (hplE : E.pageLimit = none)
    (hsp : SP (frameStep st fr).1 E) :
    frameStep (E, st.2) fr = (E, (frameStep st fr).2) := by
  unfold frameStep at hsp ⊢
  have hplA : (fr.subdirs.foldl (subdirStep fr.path) st).1.pageLimit = none :=
    (foldl_SP (subdirStep fr.path) (subdirStep_SP fr.path) (subdirStep_pageLimit fr.path)
      fr.subdirs st hpl).2
  have hspB : SP (fr.subdirs.foldl (subdirStep fr.path) st).1
      (fr.files.foldl (fileStep fr.path) (fr.subdirs.foldl (subdirStep fr.path) st)).1 :=
    (foldl_SP (fileStep fr.path) (fileStep_SP fr.path) (fileStep_pageLimit fr.path)
      fr.files (fr.subdirs.foldl (subdirStep fr.path) st) hplA).1
  have hspA : SP (fr.subdirs.foldl (subdirStep fr.path) st).1 E := SP_trans hspB hsp
  rw [foldl_replay (subdirStep fr.path) (subdirStep_SP fr.path) (subdirStep_pageLimit fr.path)
    (subdirStep_replay fr.path) fr.subdirs st E hpl hplE hspA]
  exact foldl_replay (fileStep fr.path) (fileStep_SP fr.path) (fileStep_pageLimit fr.path)
    (fileStep_replay fr.path) fr.files (fr.subdirs.foldl (subdirStep fr.path) st) E
    hplA hplE hsp

/-- The claim C3: on a well-behaved listing server (the whole result set
arrives in the first page, `pageLimit = none`), running `upload_folder`
twice over an unchanged local tree from the same starting remote parent
leaves the remote state of the first run exactly unchanged — the full
`Drive` (entity list and `nextId`) and even the final `dirs_dict` of the
second run coincide with the first run's. Since `nextId` is incremented
exactly once by every `create_folder` and every `upload_file` call,
`nextId` being unchanged certifies that the second invocation issued zero
create and zero upload calls; by the structure of `subdirStep` and
`fileStep` a create (resp. upload) happens exactly when the
`search_folder` (resp. `search_file`) lookup fails, so every lookup of
the second run succeeded. -/
theorem upload_folder_idempotent (d : Drive) (dir : String) (t : LTree) (id_parent : String)
    (hpl : d.pageLimit = none) :
    upload_folder (upload_folder d dir t id_parent).1 dir t id_parent =
      upload_folder d dir t id_parent := by
  unfold upload_folder runFrames
  have hplF : ((walk dir t).foldl frameStep (d, [(dir, id_parent)])).1.pageLimit = none :=
    (foldl_SP frameStep frameStep_SP frameStep_pageLimit (walk dir t)
      (d, [(dir, id_parent)]) hpl).2
  exact foldl_replay frameStep frameStep_SP frameStep_pageLimit frameStep_replay
    (walk dir t) (d, [(dir, id_parent)])
    ((walk dir t).foldl frameStep (d, [(dir, id_parent)])).1 hpl hplF (SP_refl _)

theorem upload_folder_idempotent_witness :
    emptyDrive.pageLimit = none ∧
      upload_folder (upload_folder emptyDrive "root" tC3 "P").1 "root" tC3 "P" =
        upload_folder emptyDrive "root" tC3 "P" :=
  ⟨rfl, upload_folder_idempotent emptyDrive "root" tC3 "P" rfl⟩
